import Mathlib

/-!
Verification of the DTIC research-landscape analyzer (`uncharted-waters`).

This file shallowly embeds the deterministic core of the pipeline:

* `src/src/models.py`      — the pydantic data model (proposals, publications,
  similarity results, comparisons, reports);
* `src/src/config.py`      — threshold constants;
* `src/src/analysis/scoring.py` — `compute_overlap_rating`, `compute_verdict`,
  `compute_confidence`;
* `src/src/embeddings/similarity.py` — `_extract_concepts`,
  `_compute_idf_concept_scores`, `rank_publications`;
* `src/src/analysis/llm_client.py` — the pure post-LLM portion of
  `analyze_uniqueness` (enrichment join `_find_sr`, comparison building,
  report assembly);
* `src/src/pipeline.py`    — the zero-publication short-circuit of
  `run_pipeline`.

Modelling conventions:

* Python floats are modelled by a linearly ordered field (`ℚ` for the
  decidable scoring layer, `ℝ` for the ranker, which uses `sqrt` and `log`);
  float rounding error is out of scope.
* `numpy` arrays are `List`s; matrix products are explicit dot products.
* The sentence-embedding encoders (`encode_proposal`, `encode_publications`,
  `encode_concepts`) are external ML models and are passed as function
  parameters.
* `CONCEPT_MATCH_THRESHOLD` is imported by `similarity.py` but is not defined
  in `config.py`; it is modelled as an explicit parameter `tau`.
* Python's stable `list.sort(key=..., reverse=True)` is modelled as an
  insertion sort on index-tagged elements ordered lexicographically by
  (score descending, original index ascending), which is the unique stable
  descending order.
-/

/-! ## Data model (`src/src/models.py`) -/

/-- The `MilitaryBranch` enum. -/
inductive MilitaryBranch where
  | NAVY | ARMY | AIR_FORCE | DARPA | DOD | MARINE_CORPS | SPACE_FORCE | UNKNOWN
  deriving DecidableEq, Repr

/-- The `.value` string of a `MilitaryBranch` member. -/
def MilitaryBranch.value : MilitaryBranch → String
  | .NAVY => "navy"
  | .ARMY => "army"
  | .AIR_FORCE => "air_force"
  | .DARPA => "darpa"
  | .DOD => "dod"
  | .MARINE_CORPS => "marine_corps"
  | .SPACE_FORCE => "space_force"
  | .UNKNOWN => "unknown"

/-- The `Verdict` enum. -/
inductive Verdict where
  | UNIQUE | NAVY_UNIQUE | AT_RISK | NEEDS_REVIEW
  deriving DecidableEq, Repr

/-- `UserProposal`: the user's research topic input. -/
structure UserProposal where
  title : String
  abstract : String := ""
  topic_description : String := ""
  keywords : List String := []
  military_branch : MilitaryBranch := .NAVY
  additional_context : String := ""
  deriving DecidableEq, Repr

/-- `Publication`: a publication retrieved from DTIC Dimensions.
The scraper-provided relevance `score` field is kept as a plain rational;
it is unused by the verified code paths. -/
structure Publication where
  id : String
  title : String
  short_abstract : String := ""
  full_abstract : String := ""
  authors : List String := []
  pub_year : Option Int := none
  journal_title : String := ""
  doi : String := ""
  acknowledgements : String := ""
  times_cited : Nat := 0
  score : ℚ := 0
  detected_branches : List MilitaryBranch := []
  url : String := ""
  deriving DecidableEq, Repr

/-- `SimilarityResult`: a publication with its computed similarity score,
parametric in the score field (`ℚ` for decidable tests, `ℝ` in the ranker). -/
structure SimilarityResult (α : Type) where
  publication : Publication
  similarity_score : α
  rank : Nat := 0
  deriving DecidableEq, Repr

/-- The default `Publication` used only to give `List.getD` a value;
in-range indexing never reaches it. -/
def defaultPub : Publication :=
  { id := "", title := "" }

/-- The default `SimilarityResult` for `List.getD`. -/
def defaultSR {α : Type} [Zero α] : SimilarityResult α :=
  { publication := defaultPub, similarity_score := 0 }

/-- `PublicationComparison`: narrative-layer output for one publication. -/
structure PublicationComparison (α : Type) where
  publication_id : String
  title : String
  similarity_assessment : String
  key_differences : List String := []
  key_overlaps : List String := []
  overlap_rating : String := "low"
  url : String := ""
  pub_year : Option Int := none
  funding_branches : List String := []
  similarity_score : α
  deriving DecidableEq, Repr

/-- `AnalysisReport`: the complete uniqueness analysis report. -/
structure AnalysisReport (α : Type) where
  proposal : UserProposal
  verdict : Verdict
  confidence : α
  executive_summary : String
  comparisons : List (PublicationComparison α) := []
  points_of_differentiation : List String := []
  recommendations : List String := []
  total_results_found : Nat := 0
  results_analyzed : Nat := 0
  search_queries_used : List String := []
  deriving DecidableEq, Repr

/-! ## Configuration constants (`src/src/config.py`) -/

/-- `SIMILARITY_TOP_K = 20`. -/
def SIMILARITY_TOP_K : Nat := 20

/-- `SIMILARITY_THRESHOLD = 0.3`. -/
def SIMILARITY_THRESHOLD {α : Type} [DivisionRing α] : α := 3 / 10

/-- `OVERLAP_HIGH_THRESHOLD = 0.60`. -/
def OVERLAP_HIGH_THRESHOLD {α : Type} [DivisionRing α] : α := 60 / 100

/-- `OVERLAP_MEDIUM_THRESHOLD = 0.45`. -/
def OVERLAP_MEDIUM_THRESHOLD {α : Type} [DivisionRing α] : α := 45 / 100

/-! ## Deterministic scoring (`src/src/analysis/scoring.py`) -/

section Scoring

variable {α : Type} [LinearOrderedField α]

/-- `compute_overlap_rating`: map a cosine similarity score to a categorical
overlap rating by threshold comparison. -/
def compute_overlap_rating (similarity_score : α) : String :=
  if OVERLAP_HIGH_THRESHOLD ≤ similarity_score then "high"
  else if OVERLAP_MEDIUM_THRESHOLD ≤ similarity_score then "medium"
  else "low"

/-- `[i for i, r in enumerate(overlap_ratings) if r == rating]`. -/
def ratingIndices (overlap_ratings : List String) (rating : String) : List Nat :=
  (List.range overlap_ratings.length).filter
    (fun i => overlap_ratings.getD i "" = rating)

/-- The inner `_any_shares_branch` helper of `compute_verdict`: whether any
of the results at the given indices has a detected branch whose `.value`
equals the proposal branch.  Indices produced by `ratingIndices` are always
in range, so the `getD` default is never consulted there. -/
def any_shares_branch (results : List (SimilarityResult α)) (indices : List Nat)
    (proposal_branch : String) : Bool :=
  indices.any (fun i =>
    ((results.getD i defaultSR).publication.detected_branches.map
      MilitaryBranch.value).contains proposal_branch)

/-- `compute_verdict`: determine verdict from overlap distribution and branch
matching; rules evaluated in order, first match wins. -/
def compute_verdict (results : List (SimilarityResult α))
    (overlap_ratings : List String) (proposal_branch : String) : Verdict :=
  if results = [] then .UNIQUE
  else
    let high_indices := ratingIndices overlap_ratings "high"
    let medium_indices := ratingIndices overlap_ratings "medium"
    if high_indices ≠ [] then .AT_RISK
    else if medium_indices ≠ [] then
      if any_shares_branch results medium_indices proposal_branch then .NEEDS_REVIEW
      else .NAVY_UNIQUE
    else .UNIQUE

variable [FloorRing α]

/-- Python's `round(x, 2)`: round to the nearest hundredth.  (Python uses
round-half-even on binary floats; the tie case only matters at exact
thousandth-of-a-half boundaries, which the verified properties avoid.) -/
def roundTo2 (x : α) : α :=
  ((⌊x * 100 + 1 / 2⌋ : ℤ) : α) / 100

/-- The verdict-specific base term of `compute_confidence` (non-empty
results case), transcribed from the `if/elif` chain. -/
def confidenceBase (results : List (SimilarityResult α))
    (overlap_ratings : List String) (verdict : Verdict) : α :=
  let max_score : α :=
    match results with
    | [] => 0
    | r :: rs => (rs.map (·.similarity_score)).foldl max r.similarity_score
  let n_high : α := ((overlap_ratings.filter (· = "high")).length : α)
  let n_medium : α := ((overlap_ratings.filter (· = "medium")).length : α)
  match verdict with
  | .UNIQUE =>
      let gap := OVERLAP_MEDIUM_THRESHOLD - max_score
      60 / 100 + min (gap / OVERLAP_MEDIUM_THRESHOLD) 1 * (35 / 100)
  | .AT_RISK => 60 / 100 + min (n_high / 5) 1 * (30 / 100)
  | .NAVY_UNIQUE =>
      let overlap_count := n_high + n_medium
      65 / 100 + min (overlap_count / 8) 1 * (20 / 100)
  | .NEEDS_REVIEW => 45 / 100 + min (n_medium / 6) 1 * (15 / 100)

/-- The sample-size bonus of `compute_confidence`:
`min(len(results) / 15.0, 1.0) * 0.05`. -/
def sampleBonus (n : Nat) : α :=
  min ((n : α) / 15) 1 * (5 / 100)

/-- `compute_confidence`: a confidence score for the given verdict —
verdict-specific base plus sample-size bonus, clamped to [0.10, 0.99] and
rounded to two decimals.  `results = []` short-circuits to `0.90`. -/
def compute_confidence (results : List (SimilarityResult α))
    (overlap_ratings : List String) (verdict : Verdict) : α :=
  if results = [] then 90 / 100
  else
    let confidence := confidenceBase results overlap_ratings verdict
      + sampleBonus results.length
    roundTo2 (max (10 / 100) (min (99 / 100) confidence))

end Scoring

/-! ## Claim C3: `compute_overlap_rating` thresholds and monotonicity -/

/-- Numeric level of a rating string, used to state monotonicity of the
categorical overlap rating ("low" < "medium" < "high"). -/
def ratingLevel (r : String) : Nat :=
  if r = "high" then 2 else if r = "medium" then 1 else 0

/-- C3. `compute_overlap_rating` is a pure threshold comparison, monotonic
non-decreasing: it returns "high" iff s ≥ 0.60, "medium" iff
0.45 ≤ s < 0.60, "low" otherwise; boundary-exact at 0.60, 0.45 and
0.4499. -/
theorem overlap_rating_thresholds_and_monotone :
    (∀ s : ℚ, (compute_overlap_rating s = "high" ↔ 60 / 100 ≤ s)
      ∧ (compute_overlap_rating s = "medium" ↔ 45 / 100 ≤ s ∧ s < 60 / 100)
      ∧ (compute_overlap_rating s = "low" ↔ s < 45 / 100))
    ∧ (∀ s t : ℚ, s ≤ t →
        ratingLevel (compute_overlap_rating s) ≤ ratingLevel (compute_overlap_rating t))
    ∧ compute_overlap_rating ((60 : ℚ) / 100) = "high"
    ∧ compute_overlap_rating ((45 : ℚ) / 100) = "medium"
    ∧ compute_overlap_rating ((4499 : ℚ) / 10000) = "low" := by
  refine ⟨fun s => ?_, fun s t hst => ?_, by norm_num [compute_overlap_rating,
    OVERLAP_HIGH_THRESHOLD, OVERLAP_MEDIUM_THRESHOLD],
    by norm_num [compute_overlap_rating, OVERLAP_HIGH_THRESHOLD, OVERLAP_MEDIUM_THRESHOLD],
    by norm_num [compute_overlap_rating, OVERLAP_HIGH_THRESHOLD, OVERLAP_MEDIUM_THRESHOLD]⟩
  · unfold compute_overlap_rating OVERLAP_HIGH_THRESHOLD OVERLAP_MEDIUM_THRESHOLD
    split_ifs with h1 h2 <;>
      refine ⟨?_, ?_, ?_⟩ <;> simp_all <;> linarith
  · by_cases h1 : (60 : ℚ) / 100 ≤ s
    · have h2 : (60 : ℚ) / 100 ≤ t := le_trans h1 hst
      simp [compute_overlap_rating, OVERLAP_HIGH_THRESHOLD, h1, h2]
    · by_cases h3 : (45 : ℚ) / 100 ≤ s
      · have h4 : (45 : ℚ) / 100 ≤ t := le_trans h3 hst
        have hs : compute_overlap_rating s = "medium" := by
          simp [compute_overlap_rating, OVERLAP_HIGH_THRESHOLD,
            OVERLAP_MEDIUM_THRESHOLD, h1, h3]
        by_cases h5 : (60 : ℚ) / 100 ≤ t
        · have ht : compute_overlap_rating t = "high" := by
            simp [compute_overlap_rating, OVERLAP_HIGH_THRESHOLD, h5]
          rw [hs, ht]; decide
        · have ht : compute_overlap_rating t = "medium" := by
            simp [compute_overlap_rating, OVERLAP_HIGH_THRESHOLD,
              OVERLAP_MEDIUM_THRESHOLD, h5, h4]
          rw [hs, ht]
      · have hs : compute_overlap_rating s = "low" := by
          simp [compute_overlap_rating, OVERLAP_HIGH_THRESHOLD,
            OVERLAP_MEDIUM_THRESHOLD, h1, h3]
        rw [hs]
        exact Nat.zero_le _

/-- Witness for C3 at concrete inputs: monotonicity applied at s = 0,
t = 1. -/
theorem overlap_rating_thresholds_and_monotone_witness :
    (0 : ℚ) ≤ 1 ∧
      ratingLevel (compute_overlap_rating (0 : ℚ)) ≤
        ratingLevel (compute_overlap_rating (1 : ℚ)) :=
  ⟨by norm_num, overlap_rating_thresholds_and_monotone.2.1 0 1 (by norm_num)⟩

/-! ## Claim C2: `compute_verdict` rule order -/

/-- Membership in `ratingIndices`: exactly the in-range positions holding
the given rating. -/
theorem mem_ratingIndices {rs : List String} {s : String} {i : Nat} :
    i ∈ ratingIndices rs s ↔ i < rs.length ∧ rs.getD i "" = s := by
  simp [ratingIndices, List.mem_filter, List.mem_range]

/-- `ratingIndices` is non-empty exactly when the rating occurs in the
list. -/
theorem ratingIndices_ne_nil {rs : List String} {s : String} :
    ratingIndices rs s ≠ [] ↔ s ∈ rs := by
  constructor
  · intro h
    obtain ⟨i, hi⟩ := List.exists_mem_of_ne_nil _ h
    obtain ⟨hlt, heq⟩ := mem_ratingIndices.mp hi
    rw [← heq, List.getD_eq_getElem _ _ hlt]
    exact List.getElem_mem hlt
  · intro h hnil
    obtain ⟨⟨i, hlt⟩, heq⟩ := List.mem_iff_get.mp h
    have : i ∈ ratingIndices rs s := by
      rw [mem_ratingIndices]
      exact ⟨hlt, by rw [List.getD_eq_getElem _ _ hlt]; simpa [List.get_eq_getElem] using heq⟩
    simp [hnil] at this

/-- `any_shares_branch` over the medium indices, characterized as an
existential over in-range positions. -/
theorem any_shares_branch_iff {α : Type} [LinearOrderedField α]
    (results : List (SimilarityResult α)) (rs : List String) (s : String)
    (branch : String) :
    any_shares_branch results (ratingIndices rs s) branch = true ↔
      ∃ i, i < rs.length ∧ rs.getD i "" = s ∧
        (((results.getD i defaultSR).publication.detected_branches.map
          MilitaryBranch.value).contains branch = true) := by
  simp only [any_shares_branch, List.any_eq_true]
  constructor
  · rintro ⟨i, hi, hc⟩
    obtain ⟨hlt, heq⟩ := mem_ratingIndices.mp hi
    exact ⟨i, hlt, heq, hc⟩
  · rintro ⟨i, hlt, heq, hc⟩
    exact ⟨i, mem_ratingIndices.mpr ⟨hlt, heq⟩, hc⟩

/-- C2.  `compute_verdict` evaluates its rules in order, first match wins:
empty results ⇒ UNIQUE; else any "high" rating ⇒ AT_RISK regardless of
branch; else any "medium" result whose publication has a detected branch
equal to the queried branch ⇒ NEEDS_REVIEW; else any "medium" ⇒
NAVY_UNIQUE (branch opportunity); else UNIQUE.  Stated on paired lists
(`ratings` computed one per result, as every caller does). -/
theorem compute_verdict_rule_order
    (results : List (SimilarityResult ℚ)) (ratings : List String)
    (branch : String) (hlen : ratings.length = results.length) :
    (results = [] → compute_verdict results ratings branch = .UNIQUE)
    ∧ (results ≠ [] → "high" ∈ ratings →
        compute_verdict results ratings branch = .AT_RISK)
    ∧ (results ≠ [] → "high" ∉ ratings →
        (∃ i, i < ratings.length ∧ ratings.getD i "" = "medium" ∧
          (((results.getD i defaultSR).publication.detected_branches.map
            MilitaryBranch.value).contains branch = true)) →
        compute_verdict results ratings branch = .NEEDS_REVIEW)
    ∧ (results ≠ [] → "high" ∉ ratings →
        ¬(∃ i, i < ratings.length ∧ ratings.getD i "" = "medium" ∧
          (((results.getD i defaultSR).publication.detected_branches.map
            MilitaryBranch.value).contains branch = true)) →
        "medium" ∈ ratings →
        compute_verdict results ratings branch = .NAVY_UNIQUE)
    ∧ (results ≠ [] → "high" ∉ ratings → "medium" ∉ ratings →
        compute_verdict results ratings branch = .UNIQUE) := by
  refine ⟨fun h => by simp [compute_verdict, h], ?_, ?_, ?_, ?_⟩
  · intro hne hhigh
    have h1 : ratingIndices ratings "high" ≠ [] := ratingIndices_ne_nil.mpr hhigh
    simp [compute_verdict, hne, h1]
  · intro hne hhigh hex
    have h1 : ¬(ratingIndices ratings "high" ≠ []) := by
      simpa [ratingIndices_ne_nil] using hhigh
    have h2 : ratingIndices ratings "medium" ≠ [] := by
      rw [ratingIndices_ne_nil]
      obtain ⟨i, hlt, heq, _⟩ := hex
      rw [← heq, List.getD_eq_getElem _ _ hlt]
      exact List.getElem_mem hlt
    have h3 : any_shares_branch results (ratingIndices ratings "medium") branch
        = true := (any_shares_branch_iff results ratings "medium" branch).mpr hex
    simp [compute_verdict, hne, h1, h2, h3]
  · intro hne hhigh hnex hmed
    have h1 : ¬(ratingIndices ratings "high" ≠ []) := by
      simpa [ratingIndices_ne_nil] using hhigh
    have h2 : ratingIndices ratings "medium" ≠ [] := ratingIndices_ne_nil.mpr hmed
    have h3 : any_shares_branch results (ratingIndices ratings "medium") branch
        = false := by
      cases hb : any_shares_branch results (ratingIndices ratings "medium") branch
      · rfl
      · exact absurd ((any_shares_branch_iff results ratings "medium" branch).mp hb) hnex
    simp [compute_verdict, hne, h1, h2, h3]
  · intro hne hhigh hmed
    have h1 : ¬(ratingIndices ratings "high" ≠ []) := by
      simpa [ratingIndices_ne_nil] using hhigh
    have h2 : ¬(ratingIndices ratings "medium" ≠ []) := by
      simpa [ratingIndices_ne_nil] using hmed
    simp [compute_verdict, hne, h1, h2]

/-- Witness for C2: the empty call `compute_verdict [] [] "navy"` yields
UNIQUE, via the rule-order theorem at a concrete input. -/
theorem compute_verdict_rule_order_witness :
    compute_verdict ([] : List (SimilarityResult ℚ)) [] "navy" = .UNIQUE :=
  (compute_verdict_rule_order [] [] "navy" rfl).1 rfl

/-! ## Claim C7: `compute_confidence` bounds and structure -/

/-- `roundTo2` is monotone. -/
theorem roundTo2_mono {x y : ℚ} (h : x ≤ y) : roundTo2 x ≤ roundTo2 y := by
  unfold roundTo2
  have : (⌊x * 100 + 1 / 2⌋ : ℤ) ≤ ⌊y * 100 + 1 / 2⌋ :=
    Int.floor_le_floor (by linarith)
  have : ((⌊x * 100 + 1 / 2⌋ : ℤ) : ℚ) ≤ ((⌊y * 100 + 1 / 2⌋ : ℤ) : ℚ) := by
    exact_mod_cast this
  linarith

/-- `roundTo2` fixes exact hundredths. -/
theorem roundTo2_hundredth (z : ℤ) : roundTo2 ((z : ℚ) / 100) = (z : ℚ) / 100 := by
  unfold roundTo2
  have h1 : (z : ℚ) / 100 * 100 + 1 / 2 = (z : ℚ) + 1 / 2 := by ring
  rw [h1, Int.floor_int_add]
  norm_num

/-- C7.  For every input, `compute_confidence` lies in [0.10, 0.99] and is
an exact multiple of 0.01 (rounded to 2 decimals); on non-empty results it
equals the rounded clamp of the verdict-specific base plus the sample-size
bonus, on empty results it is the flat 0.90; and the sample-size bonus is
at most 0.05 and saturates at 15 results. -/
theorem compute_confidence_bounds (results : List (SimilarityResult ℚ))
    (ratings : List String) (verdict : Verdict) :
    (1 / 10 ≤ compute_confidence results ratings verdict
      ∧ compute_confidence results ratings verdict ≤ 99 / 100)
    ∧ (∃ z : ℤ, compute_confidence results ratings verdict = (z : ℚ) / 100)
    ∧ (results ≠ [] → compute_confidence results ratings verdict =
        roundTo2 (max (10 / 100) (min (99 / 100)
          (confidenceBase results ratings verdict + sampleBonus results.length))))
    ∧ (results = [] → compute_confidence results ratings verdict = 90 / 100)
    ∧ sampleBonus (α := ℚ) results.length ≤ 5 / 100
    ∧ (15 ≤ results.length → sampleBonus (α := ℚ) results.length = 5 / 100) := by
  have hbonus : sampleBonus (α := ℚ) results.length ≤ 5 / 100 := by
    unfold sampleBonus
    have h1 : min ((results.length : ℚ) / 15) 1 ≤ 1 := min_le_right _ _
    have h0 : (0 : ℚ) ≤ 5 / 100 := by norm_num
    calc min ((results.length : ℚ) / 15) 1 * (5 / 100)
        ≤ 1 * (5 / 100) := mul_le_mul_of_nonneg_right h1 h0
      _ = 5 / 100 := one_mul _
  have hsat : 15 ≤ results.length → sampleBonus (α := ℚ) results.length = 5 / 100 := by
    intro h
    unfold sampleBonus
    have h1 : (1 : ℚ) ≤ (results.length : ℚ) / 15 := by
      rw [le_div_iff₀ (by norm_num)]
      have : (15 : ℚ) ≤ (results.length : ℚ) := by exact_mod_cast h
      linarith
    rw [min_eq_right h1, one_mul]
  by_cases hr : results = []
  · refine ⟨⟨?_, ?_⟩, ⟨90, ?_⟩, fun h => absurd hr h, fun _ => ?_, hbonus, hsat⟩ <;>
      simp [compute_confidence, hr] <;> norm_num
  · have hc : compute_confidence results ratings verdict =
        roundTo2 (max (10 / 100) (min (99 / 100)
          (confidenceBase results ratings verdict + sampleBonus results.length))) := by
      simp [compute_confidence, hr]
    set y : ℚ := max (10 / 100) (min (99 / 100)
      (confidenceBase results ratings verdict + sampleBonus results.length)) with hy
    have hylo : (10 : ℚ) / 100 ≤ y := le_max_left _ _
    have hyhi : y ≤ 99 / 100 :=
      max_le (by norm_num) (min_le_left _ _)
    have hlo : (1 : ℚ) / 10 ≤ roundTo2 y := by
      have h := roundTo2_mono hylo
      have h10 := roundTo2_hundredth 10
      push_cast at h10
      rw [h10] at h
      linarith
    have hhi : roundTo2 y ≤ 99 / 100 := by
      have h := roundTo2_mono hyhi
      have h99 := roundTo2_hundredth 99
      push_cast at h99
      rw [h99] at h
      exact h
    refine ⟨⟨?_, ?_⟩, ⟨⌊y * 100 + 1 / 2⌋, ?_⟩, fun _ => hc, fun h => absurd h hr,
      hbonus, hsat⟩
    · rw [hc]; exact hlo
    · rw [hc]; exact hhi
    · rw [hc]; rfl

/-- Witness for C7 at a concrete input: a 15-element result list realizes
the saturated sample-size bonus, and the bounds hold there. -/
theorem compute_confidence_bounds_witness :
    15 ≤ (List.replicate 15 (defaultSR (α := ℚ))).length
    ∧ sampleBonus (α := ℚ) (List.replicate 15 (defaultSR (α := ℚ))).length = 5 / 100
    ∧ 1 / 10 ≤ compute_confidence (List.replicate 15 (defaultSR (α := ℚ))) [] .UNIQUE :=
  ⟨by simp,
   (compute_confidence_bounds (List.replicate 15 defaultSR) [] .UNIQUE).2.2.2.2.2
     (by simp),
   (compute_confidence_bounds (List.replicate 15 defaultSR) [] .UNIQUE).1.1⟩

/-! ## Concept extraction (`src/src/embeddings/similarity.py`, `_extract_concepts`) -/

/-- `_STOPWORDS` from `similarity.py`, verbatim. -/
def STOPWORDS : List String := [
  "a", "an", "the", "and", "or", "but", "in", "on", "at", "to", "for",
  "of", "with", "by", "from", "is", "are", "was", "were", "be", "been",
  "being", "have", "has", "had", "do", "does", "did", "will", "would",
  "could", "should", "may", "might", "can", "shall", "not", "no",
  "its", "it", "this", "that", "these", "those", "their", "them",
  "they", "we", "our", "you", "your", "he", "she", "his", "her",
  "my", "me", "i", "what", "which", "who", "whom", "how", "where",
  "when", "why", "if", "then", "than", "so", "as", "up", "out",
  "about", "into", "over", "after", "before", "between", "under",
  "above", "below", "all", "each", "every", "both", "few", "more",
  "most", "other", "some", "such", "only", "very", "also", "just",
  "using", "used", "use", "based", "provide", "provided", "including",
  "across", "through", "during", "among", "via", "new", "like"]

/-- A regex word character (`\w` over ASCII): alphanumeric or underscore. -/
def isWordChar (c : Char) : Bool := c.isAlphanum || c = '_'

/-- A character matchable by `[\w-]`: word character or hyphen. -/
def isTokenChar (c : Char) : Bool := c.isAlphanum || c = '_' || c = '-'

/-- Remove the trailing hyphens a greedy `[\w-]*` must backtrack over to
satisfy the closing `\b`. -/
def dropTrailingHyphens (l : List Char) : List Char :=
  (l.reverse.dropWhile (· = '-')).reverse

/-- Fuel-indexed scanner equivalent to
`re.findall(r"\b[a-zA-Z0-9][\w-]*\b", text)` over ASCII: a match starts at
an alphanumeric character not preceded by a word character, greedily takes
`[\w-]` characters, and sheds trailing hyphens for the final boundary.
The Boolean argument records whether the previous character was a word
character.  Fuel (initially the text length) strictly bounds the scan, so
the definition is structurally recursive and kernel-reducible. -/
def tokenizeAux : Nat → List Char → Bool → List (List Char)
  | 0, _, _ => []
  | _ + 1, [], _ => []
  | fuel + 1, c :: rest, prevWord =>
    if c.isAlphanum && !prevWord then
      let run := c :: rest.takeWhile isTokenChar
      dropTrailingHyphens run ::
        tokenizeAux fuel (rest.dropWhile isTokenChar) (isWordChar (run.getLastD 'x'))
    else
      tokenizeAux fuel rest (isWordChar c)

/-- `re.findall(r"\b[a-zA-Z0-9][\w-]*\b", s)` as a list of strings. -/
def findallWords (s : String) : List String :=
  (tokenizeAux s.toList.length s.toList false).map (fun cs => String.mk cs)

/-- ASCII lowercasing by character, as a kernel-reducible replacement for
`String.toLower` (Python's `str.lower()`; the model is ASCII-faithful). -/
def strToLower (s : String) : String :=
  String.mk (s.toList.map Char.toLower)

/-- Accumulator pass for `splitWords`; the accumulator holds the current
fragment reversed. -/
def splitWordsAux : List Char → List Char → List String
  | [], acc => if acc.isEmpty then [] else [String.mk acc.reverse]
  | c :: rest, acc =>
    if c.isWhitespace then
      if acc.isEmpty then splitWordsAux rest []
      else String.mk acc.reverse :: splitWordsAux rest []
    else splitWordsAux rest (c :: acc)

/-- Python `str.split()` (no argument): split on whitespace runs,
discarding empty fragments. -/
def splitWords (s : String) : List String :=
  splitWordsAux s.toList []

/-- The initial `seen` set of `_extract_concepts`:
`set(w.lower() for kw in concepts for w in kw.split())`, as a list. -/
def kwWords (keywords : List String) : List String :=
  keywords.foldl (fun acc kw => acc ++ (splitWords kw).map strToLower) []

/-- One word step of the `_extract_concepts` loop: append `w` to the
concept and seen lists when it is not a stopword, has length ≥ 3, and has
not been seen. -/
def addConceptWord (st : List String × List String) (w : String) :
    List String × List String :=
  if !(STOPWORDS.contains w) && decide (3 ≤ w.length) && !(st.2.contains w)
  then (st.1 ++ [w], st.2 ++ [w]) else st

/-- One text step of `_extract_concepts`: skip empty text, else fold the
word step over `re.findall(..., text.lower())`. -/
def conceptStep (st : List String × List String) (text : String) :
    List String × List String :=
  if text = "" then st
  else (findallWords (strToLower text)).foldl addConceptWord st

/-- The candidate texts `[proposal.topic_description or proposal.abstract,
proposal.title]`. -/
def conceptTexts (p : UserProposal) : List String :=
  [if p.topic_description = "" then p.abstract else p.topic_description, p.title]

/-- `_extract_concepts`: explicit keywords first, then significant words
from description/title, truncated to 20. -/
def extract_concepts (p : UserProposal) : List String :=
  (((conceptTexts p).foldl conceptStep (p.keywords, kwWords p.keywords)).1).take 20

/-! ## Claim C10: concept extraction contract -/

/-- C10 counterexample.  The claim says the extracted sequence is
deduplicated case-insensitively, but explicit keywords are copied verbatim
without any deduplication: keywords `["AI", "ai"]` survive as a
case-insensitive duplicate pair. -/
theorem extract_concepts_keyword_dup_counterexample :
    extract_concepts { title := "", keywords := ["AI", "ai"] } = ["AI", "ai"]
    ∧ ¬ List.Pairwise (fun a b => strToLower a ≠ strToLower b)
        (extract_concepts { title := "", keywords := ["AI", "ai"] }) := by
  constructor
  · decide
  · decide

/-- Invariant of the `_extract_concepts` accumulation: the concept list is
the keyword list followed by a block `A` of admitted words, the seen list
is the initial keyword-word set followed by the same block, and every
admitted word is a non-stopword of length ≥ 3 unseen among the keyword
words, pairwise distinct. -/
def ConceptInv (kws seen0 : List String) (st : List String × List String) : Prop :=
  ∃ A, st.1 = kws ++ A ∧ st.2 = seen0 ++ A ∧ A.Pairwise (· ≠ ·)
    ∧ ∀ w ∈ A, STOPWORDS.contains w = false ∧ 3 ≤ w.length ∧ w ∉ seen0

theorem addConceptWord_inv {kws seen0 : List String}
    {st : List String × List String} {w : String}
    (h : ConceptInv kws seen0 st) : ConceptInv kws seen0 (addConceptWord st w) := by
  obtain ⟨A, h1, h2, h3, h4⟩ := h
  unfold addConceptWord
  by_cases hc : (!(STOPWORDS.contains w) && decide (3 ≤ w.length)
      && !(st.2.contains w)) = true
  · rw [if_pos hc]
    simp only [Bool.and_eq_true, Bool.not_eq_true', decide_eq_true_eq] at hc
    obtain ⟨⟨hstop, hlen⟩, hseen⟩ := hc
    have hmem : w ∉ seen0 ++ A := by
      intro hmem
      have : st.2.contains w = true := by
        rw [h2]
        simpa [List.contains, List.elem_eq_mem] using hmem
      rw [this] at hseen
      simp at hseen
    rw [List.mem_append] at hmem
    push_neg at hmem
    refine ⟨A ++ [w], ?_, ?_, ?_, ?_⟩
    · rw [h1, List.append_assoc]
    · rw [h2, List.append_assoc]
    · rw [List.pairwise_append]
      refine ⟨h3, List.pairwise_singleton _ _, fun a ha b hb => ?_⟩
      rw [List.mem_singleton] at hb
      subst hb
      intro hab
      exact hmem.2 (hab ▸ ha)
    · intro x hx
      rw [List.mem_append, List.mem_singleton] at hx
      rcases hx with hx | hx
      · exact h4 x hx
      · subst hx
        exact ⟨hstop, hlen, hmem.1⟩
  · rw [if_neg hc]
    exact ⟨A, h1, h2, h3, h4⟩

theorem foldl_addConceptWord_inv {kws seen0 : List String} :
    ∀ (ws : List String) (st : List String × List String),
      ConceptInv kws seen0 st → ConceptInv kws seen0 (ws.foldl addConceptWord st)
  | [], _, h => h
  | _ :: ws, st, h => foldl_addConceptWord_inv ws _ (addConceptWord_inv h)

theorem conceptStep_inv {kws seen0 : List String}
    {st : List String × List String} {text : String}
    (h : ConceptInv kws seen0 st) : ConceptInv kws seen0 (conceptStep st text) := by
  unfold conceptStep
  split
  · exact h
  · exact foldl_addConceptWord_inv _ _ h

theorem foldl_conceptStep_inv {kws seen0 : List String} :
    ∀ (texts : List String) (st : List String × List String),
      ConceptInv kws seen0 st → ConceptInv kws seen0 (texts.foldl conceptStep st)
  | [], _, h => h
  | _ :: ts, st, h => foldl_conceptStep_inv ts _ (conceptStep_inv h)

/-- An all-filtered word list leaves the accumulator unchanged. -/
theorem foldl_addConceptWord_filtered :
    ∀ (ws : List String) (st : List String × List String),
      (∀ w ∈ ws, STOPWORDS.contains w = true ∨ w.length < 3) →
      ws.foldl addConceptWord st = st := by
  intro ws
  induction ws with
  | nil => intro st _; rfl
  | cons w ws ih =>
    intro st h
    have hw := h w (List.mem_cons_self _ _)
    have hcond : (!(STOPWORDS.contains w) && decide (3 ≤ w.length)
        && !(st.2.contains w)) = false := by
      rcases hw with hw | hw
      · have hmem : w ∈ STOPWORDS := by
          simpa [List.contains, List.elem_eq_mem] using hw
        simp [hmem]
      · have : decide (3 ≤ w.length) = false := by
          simp only [decide_eq_false_iff_not]
          omega
        simp [this]
    have hstep : addConceptWord st w = st := by
      unfold addConceptWord
      rw [hcond]
      rfl
    rw [List.foldl_cons, hstep]
    exact ih st (fun x hx => h x (List.mem_cons_of_mem _ hx))

/-- C10, amended.  The extracted sequence has at most 20 entries and starts
with the explicit keyword phrases verbatim (truncated to 20, without any
deduplication among the keywords themselves); the words appended after the
keywords are non-stopwords of length ≥ 3, pairwise distinct and distinct
from every whitespace-separated lowercased keyword word; and when there are
no keywords and every word of the description/title fails the
stopword/length filter, the result is empty. -/
theorem extract_concepts_amended (p : UserProposal) :
    (extract_concepts p).length ≤ 20
    ∧ (extract_concepts p).take (min 20 p.keywords.length) = p.keywords.take 20
    ∧ (∀ w ∈ (extract_concepts p).drop p.keywords.length,
        STOPWORDS.contains w = false ∧ 3 ≤ w.length ∧ w ∉ kwWords p.keywords)
    ∧ List.Pairwise (· ≠ ·) ((extract_concepts p).drop p.keywords.length)
    ∧ (p.keywords = [] →
        (∀ t ∈ conceptTexts p, ∀ w ∈ findallWords (strToLower t),
          STOPWORDS.contains w = true ∨ w.length < 3) →
        extract_concepts p = []) := by
  obtain ⟨A, h1, _h2, h3, h4⟩ :=
    @foldl_conceptStep_inv p.keywords (kwWords p.keywords)
      (conceptTexts p) (p.keywords, kwWords p.keywords)
      ⟨[], by simp, by simp, by simp, by simp⟩
  have hx : extract_concepts p = (p.keywords ++ A).take 20 := by
    unfold extract_concepts
    rw [h1]
  refine ⟨?_, ?_, ?_, ?_, ?_⟩
  · rw [hx]; exact List.length_take_le _ _
  · rw [hx, List.take_take]
    have hmin : min (min 20 p.keywords.length) 20 = min 20 p.keywords.length := by omega
    rw [hmin, List.take_append_of_le_length (Nat.min_le_right _ _)]
    rw [List.take_eq_take]
    omega
  · intro w hw
    rw [hx, List.drop_take, List.drop_left] at hw
    exact h4 w (List.take_subset _ _ hw)
  · rw [hx, List.drop_take, List.drop_left]
    exact h3.sublist (List.take_sublist _ _)
  · intro hkw hfilter
    unfold extract_concepts
    have hstep : ∀ t ∈ conceptTexts p, ∀ st, conceptStep st t = st := by
      intro t ht st
      unfold conceptStep
      split
      · rfl
      · exact foldl_addConceptWord_filtered _ _ (hfilter t ht)
    have : (conceptTexts p).foldl conceptStep (p.keywords, kwWords p.keywords)
        = (p.keywords, kwWords p.keywords) := by
      have hgen : ∀ (ts : List String), (∀ t ∈ ts, ∀ st, conceptStep st t = st) →
          ∀ st, ts.foldl conceptStep st = st := by
        intro ts
        induction ts with
        | nil => intro _ st; rfl
        | cons t ts ih =>
          intro h st
          rw [List.foldl_cons, h t (List.mem_cons_self _ _) st]
          exact ih (fun x hx st => h x (List.mem_cons_of_mem _ hx) st) st
      exact hgen _ hstep _
    rw [this, hkw]
    rfl

/-- Witness for C10's amended theorem: a concrete keyword-free proposal all
of whose words are stopwords or too short extracts nothing. -/
theorem extract_concepts_amended_witness :
    ({ title := "the", topic_description := "an of by" } : UserProposal).keywords = []
    ∧ extract_concepts { title := "the", topic_description := "an of by" } = [] :=
  ⟨rfl, (extract_concepts_amended _).2.2.2.2 rfl (by decide)⟩

/-! ## Enrichment join (`src/src/analysis/llm_client.py`) -/

/-- Python `str.strip()` over the char list (kernel-reducible). -/
def strTrim (s : String) : String :=
  String.mk (((s.toList.dropWhile Char.isWhitespace).reverse.dropWhile
    Char.isWhitespace).reverse)

/-- Fuel-indexed left-to-right non-overlapping removal of a pattern, the
`new = ""` case of Python `str.replace(old, "")`.  Fuel (initially the text
length) makes the recursion structural. -/
def removeSubAux : Nat → List Char → List Char → List Char
  | 0, _, l => l
  | _ + 1, _, [] => []
  | fuel + 1, pat, c :: rest =>
    if pat.isPrefixOf (c :: rest) then
      removeSubAux fuel pat ((c :: rest).drop pat.length)
    else c :: removeSubAux fuel pat rest

/-- Python `s.replace(pat, "")`: remove every occurrence of `pat`,
scanning left to right. -/
def removeSub (s pat : String) : String :=
  String.mk (removeSubAux s.toList.length pat.toList s.toList)

/-- Python `sub in s`: substring containment. -/
def containsSub (s sub : String) : Bool :=
  (List.range (s.toList.length + 1)).any
    (fun i => sub.toList.isPrefixOf (s.toList.drop i))

/-- Python dict assignment `m[k] = v` on a function-backed map:
later assignments overwrite earlier ones. -/
def dictInsert {β : Type} (m : String → Option β) (k : String) (v : β) :
    String → Option β :=
  fun s => if s = k then some v else m s

section Enrichment

variable {α : Type} [LinearOrderedField α] [FloorRing α]

/-- The `id_lookup` dict of `analyze_uniqueness`: each result is indexed by
its stripped id and (when non-empty) by the id with every `"pub."`
occurrence removed. -/
def id_lookup (srs : List (SimilarityResult α)) :
    String → Option (SimilarityResult α) :=
  srs.foldl (fun m sr =>
    let full_id := strTrim sr.publication.id
    let m := dictInsert m full_id sr
    let bare_id := strTrim (removeSub full_id "pub.")
    if bare_id ≠ "" then dictInsert m bare_id sr else m)
    (fun _ => none)

/-- The `title_lookup` dict: results indexed by stripped, lowercased
title when non-empty. -/
def title_lookup (srs : List (SimilarityResult α)) :
    String → Option (SimilarityResult α) :=
  srs.foldl (fun m sr =>
    let norm_title := strToLower (strTrim sr.publication.title)
    if norm_title ≠ "" then dictInsert m norm_title sr else m)
    (fun _ => none)

/-- The `sr_overlap_map` dict: publication id → computed overlap rating,
over the zip of results and ratings. -/
def sr_overlap_map (srs : List (SimilarityResult α)) (ratings : List String) :
    String → Option String :=
  (srs.zip ratings).foldl
    (fun m p => dictInsert m p.1.publication.id p.2) (fun _ => none)

/-- `_find_sr`: multi-strategy reconciliation of an LLM-returned
(identifier, title) pair against the authoritative result set. -/
def find_sr (srs : List (SimilarityResult α)) (pub_id title : String) :
    Option (SimilarityResult α) :=
  let pid := strTrim pub_id
  match id_lookup srs pid with
  | some sr => some sr
  | none =>
    let bare := strTrim (removeSub pid "pub.")
    match id_lookup srs bare with
    | some sr => some sr
    | none =>
      match id_lookup srs ("pub." ++ bare) with
      | some sr => some sr
      | none =>
        let norm := strToLower (strTrim title)
        match title_lookup srs norm with
        | some sr => some sr
        | none =>
          match srs.find? (fun sr =>
            let sr_bare := strTrim (removeSub sr.publication.id "pub.")
            bare != "" && sr_bare != "" && bare == sr_bare) with
          | some sr => some sr
          | none =>
            srs.find? (fun sr =>
              let sr_title := strToLower (strTrim sr.publication.title)
              norm != "" && sr_title != "" &&
                (containsSub sr_title norm || containsSub norm sr_title))

/-- One parsed entry of the LLM's `comparisons` array.  The two
`asserted_*` fields model metric fields the narrative layer may emit;
the code never reads them. -/
structure ParsedComparison (α : Type) where
  publication_id : String := ""
  title : String := ""
  similarity_assessment : String := ""
  key_differences : List String := []
  key_overlaps : List String := []
  asserted_overlap_rating : String := ""
  asserted_similarity_score : α
  deriving DecidableEq, Repr

/-- The parsed JSON object returned by the LLM. -/
structure ParsedResponse (α : Type) where
  executive_summary : String := ""
  comparisons : List (ParsedComparison α) := []
  points_of_differentiation : List String := []
  recommendations : List String := []
  deriving DecidableEq, Repr

/-- The comparison-building step of `analyze_uniqueness`: enrich one parsed
entry with authoritative metadata; on a total miss, default metadata. -/
def build_comparison (srs : List (SimilarityResult α)) (ratings : List String)
    (c : ParsedComparison α) : PublicationComparison α :=
  match find_sr srs c.publication_id c.title with
  | some sr =>
      { publication_id := c.publication_id
        title := c.title
        similarity_assessment := c.similarity_assessment
        key_differences := c.key_differences
        key_overlaps := c.key_overlaps
        overlap_rating := (sr_overlap_map srs ratings sr.publication.id).getD "low"
        url := sr.publication.url
        pub_year := sr.publication.pub_year
        funding_branches := sr.publication.detected_branches.map MilitaryBranch.value
        similarity_score := sr.similarity_score }
  | none =>
      { publication_id := c.publication_id
        title := c.title
        similarity_assessment := c.similarity_assessment
        key_differences := c.key_differences
        key_overlaps := c.key_overlaps
        overlap_rating := "low"
        url := ""
        pub_year := none
        funding_branches := []
        similarity_score := 0 }

/-- The pure post-LLM portion of `analyze_uniqueness`: deterministic
metrics are computed from the similarity results before the LLM call;
`llm_response` is the parse outcome of the LLM's text (`.error raw` models
a `json.JSONDecodeError` on raw text `raw`, which degrades to a raw-text
report with the deterministic metrics and no comparisons). -/
def analyze_uniqueness (proposal : UserProposal)
    (similarity_results : List (SimilarityResult α))
    (search_queries_used : List String)
    (llm_response : Except String (ParsedResponse α)) : AnalysisReport α :=
  let overlap_ratings :=
    similarity_results.map (fun r => compute_overlap_rating r.similarity_score)
  let verdict := compute_verdict similarity_results overlap_ratings
    proposal.military_branch.value
  let confidence := compute_confidence similarity_results overlap_ratings verdict
  match llm_response with
  | .error response_text =>
      { proposal := proposal
        verdict := verdict
        confidence := confidence
        executive_summary :=
          "LLM response could not be parsed. Raw response:\n\n" ++ response_text
        total_results_found := similarity_results.length
        results_analyzed := similarity_results.length
        search_queries_used := search_queries_used }
  | .ok parsed =>
      { proposal := proposal
        verdict := verdict
        confidence := confidence
        executive_summary := parsed.executive_summary
        comparisons :=
          parsed.comparisons.map (build_comparison similarity_results overlap_ratings)
        points_of_differentiation := parsed.points_of_differentiation
        recommendations := parsed.recommendations
        total_results_found := similarity_results.length
        results_analyzed := similarity_results.length
        search_queries_used := search_queries_used }

end Enrichment

/-! ## Claim C8: enrichment join strategy order and graceful degradation -/

/-- A concrete authoritative result with a `"pub."`-prefixed id, used to
state the bare-identifier lookup fact of C8. -/
def pub123SR : SimilarityResult ℚ :=
  { publication := { id := "pub.123", title := "Undersea Sensing" }
    similarity_score := 1 }

/-- A concrete LLM reference that matches nothing. -/
def missRef : ParsedComparison ℚ := ⟨"x", "y", "", [], [], "", 0⟩

/-- C8.  `_find_sr` tries, in order: exact identifier lookup (which already
indexes every result under both its full and `"pub."`-stripped id, so a
bare `"123"` finds authoritative `"pub.123"`); the LLM identifier with
`"pub."` stripped; with `"pub."` prefixed; case-insensitive exact title
lookup; a bare-identifier scan over all results; a substring title scan —
first hit wins (`<|>` chain).  Every parsed comparison is emitted (the
output list is the image of the parsed list, same length), and a total
miss yields default metadata: empty URL, no year, rating "low", score 0,
no funding branches. -/
theorem enrichment_join_order_and_graceful_miss
    (srs : List (SimilarityResult ℚ)) (ratings : List String)
    (p : ParsedResponse ℚ) (proposal : UserProposal) (queries : List String) :
    (∀ pub_id title, find_sr srs pub_id title =
        (id_lookup srs (strTrim pub_id)
          <|> id_lookup srs (strTrim (removeSub (strTrim pub_id) "pub."))
          <|> id_lookup srs ("pub." ++ strTrim (removeSub (strTrim pub_id) "pub."))
          <|> title_lookup srs (strToLower (strTrim title))
          <|> srs.find? (fun sr =>
                let sr_bare := strTrim (removeSub sr.publication.id "pub.")
                strTrim (removeSub (strTrim pub_id) "pub.") != "" && sr_bare != "" &&
                  strTrim (removeSub (strTrim pub_id) "pub.") == sr_bare)
          <|> srs.find? (fun sr =>
                let sr_title := strToLower (strTrim sr.publication.title)
                strToLower (strTrim title) != "" && sr_title != "" &&
                  (containsSub sr_title (strToLower (strTrim title)) ||
                   containsSub (strToLower (strTrim title)) sr_title))))
    ∧ find_sr [pub123SR] "123" "" = some pub123SR
    ∧ (analyze_uniqueness proposal srs queries (.ok p)).comparisons
        = p.comparisons.map (build_comparison srs
            (srs.map (fun r => compute_overlap_rating r.similarity_score)))
    ∧ (analyze_uniqueness proposal srs queries (.ok p)).comparisons.length
        = p.comparisons.length
    ∧ (∀ c : ParsedComparison ℚ, find_sr srs c.publication_id c.title = none →
        (build_comparison srs ratings c).publication_id = c.publication_id
        ∧ (build_comparison srs ratings c).title = c.title
        ∧ (build_comparison srs ratings c).url = ""
        ∧ (build_comparison srs ratings c).pub_year = none
        ∧ (build_comparison srs ratings c).overlap_rating = "low"
        ∧ (build_comparison srs ratings c).similarity_score = 0
        ∧ (build_comparison srs ratings c).funding_branches = []) := by
  refine ⟨?_, by decide, ?_, ?_, ?_⟩
  · intro pub_id title
    simp only [find_sr]
    cases h1 : id_lookup srs (strTrim pub_id) with
    | some sr => simp [h1]
    | none =>
      cases h2 : id_lookup srs (strTrim (removeSub (strTrim pub_id) "pub.")) with
      | some sr => simp [h2]
      | none =>
        cases h3 : id_lookup srs
            ("pub." ++ strTrim (removeSub (strTrim pub_id) "pub.")) with
        | some sr => simp [h3]
        | none =>
          cases h4 : title_lookup srs (strToLower (strTrim title)) with
          | some sr => simp [h4]
          | none =>
            cases h5 : srs.find? (fun sr =>
                let sr_bare := strTrim (removeSub sr.publication.id "pub.")
                strTrim (removeSub (strTrim pub_id) "pub.") != "" && sr_bare != "" &&
                  strTrim (removeSub (strTrim pub_id) "pub.") == sr_bare) with
            | some sr => simp [h5]
            | none => simp [h5]
  · rfl
  · simp [analyze_uniqueness]
  · intro c h
    simp [build_comparison, h]

/-- Witness for C8 at a concrete input: a reference that matches nothing is
still enriched with the default metadata rather than dropped. -/
theorem enrichment_join_order_and_graceful_miss_witness :
    find_sr ([] : List (SimilarityResult ℚ)) "x" "y" = none
    ∧ (build_comparison ([] : List (SimilarityResult ℚ)) [] missRef).overlap_rating
        = "low"
    ∧ (build_comparison ([] : List (SimilarityResult ℚ)) [] missRef).similarity_score
        = 0 :=
  ⟨by decide,
   ((enrichment_join_order_and_graceful_miss [] [] {} { title := "" } []).2.2.2.2
      _ (by decide)).2.2.2.2.1,
   ((enrichment_join_order_and_graceful_miss [] [] {} { title := "" } []).2.2.2.2
      _ (by decide)).2.2.2.2.2.1⟩

/-! ## Claim C5: LLM free text cannot alter the displayed metrics -/

/-- Two concrete parsed responses referencing the same publication with
divergent free text and divergent asserted metrics. -/
def parsedRespA : ParsedResponse ℚ :=
  { comparisons := [⟨"a", "b", "totally novel", [], [], "low", 0⟩] }

/-- See `parsedRespA`. -/
def parsedRespB : ParsedResponse ℚ :=
  { comparisons := [⟨"a", "b", "heavily overlapping", [], [], "high", 1⟩] }

/-- C5.  Verdict and confidence are computed from the similarity results
and branch before the LLM responds, and every emitted comparison's
overlap rating and similarity score are functions of the authoritative
result set and the reference keys (id, title) alone: two parsed responses
whose comparisons agree on (publication_id, title) — however much their
free text, asserted ratings or asserted scores differ — give reports with
identical verdict, confidence, overlap ratings and similarity scores. -/
theorem llm_free_text_cannot_alter_metrics (proposal : UserProposal)
    (srs : List (SimilarityResult ℚ)) (queries : List String)
    (p1 p2 : ParsedResponse ℚ)
    (href : p1.comparisons.map (fun c => (c.publication_id, c.title)) =
            p2.comparisons.map (fun c => (c.publication_id, c.title))) :
    (analyze_uniqueness proposal srs queries (.ok p1)).verdict
      = (analyze_uniqueness proposal srs queries (.ok p2)).verdict
    ∧ (analyze_uniqueness proposal srs queries (.ok p1)).confidence
      = (analyze_uniqueness proposal srs queries (.ok p2)).confidence
    ∧ (analyze_uniqueness proposal srs queries (.ok p1)).comparisons.map
        (fun c => c.overlap_rating)
      = (analyze_uniqueness proposal srs queries (.ok p2)).comparisons.map
        (fun c => c.overlap_rating)
    ∧ (analyze_uniqueness proposal srs queries (.ok p1)).comparisons.map
        (fun c => c.similarity_score)
      = (analyze_uniqueness proposal srs queries (.ok p2)).comparisons.map
        (fun c => c.similarity_score) := by
  refine ⟨rfl, rfl, ?_, ?_⟩
  · have h1 : ∀ (q : ParsedResponse ℚ),
        (analyze_uniqueness proposal srs queries (.ok q)).comparisons.map
          (fun c => c.overlap_rating)
        = (q.comparisons.map (fun c => (c.publication_id, c.title))).map
            (fun pr =>
              match find_sr srs pr.1 pr.2 with
              | some sr => (sr_overlap_map srs
                  (srs.map (fun r => compute_overlap_rating r.similarity_score))
                  sr.publication.id).getD "low"
              | none => "low") := by
      intro q
      simp only [analyze_uniqueness, List.map_map]
      apply List.map_congr_left
      intro c _
      simp only [Function.comp]
      unfold build_comparison
      cases find_sr srs c.publication_id c.title <;> rfl
    rw [h1 p1, h1 p2, href]
  · have h2 : ∀ (q : ParsedResponse ℚ),
        (analyze_uniqueness proposal srs queries (.ok q)).comparisons.map
          (fun c => c.similarity_score)
        = (q.comparisons.map (fun c => (c.publication_id, c.title))).map
            (fun pr =>
              match find_sr srs pr.1 pr.2 with
              | some sr => sr.similarity_score
              | none => 0) := by
      intro q
      simp only [analyze_uniqueness, List.map_map]
      apply List.map_congr_left
      intro c _
      simp only [Function.comp]
      unfold build_comparison
      cases find_sr srs c.publication_id c.title <;> rfl
    rw [h2 p1, h2 p2, href]

/-- Witness for C5 at concrete inputs: two parsed responses with the same
reference keys but different free text, asserted rating and asserted score
produce the same overlap ratings and scores. -/
theorem llm_free_text_cannot_alter_metrics_witness :
    (parsedRespA.comparisons.map (fun c => (c.publication_id, c.title)) =
      parsedRespB.comparisons.map (fun c => (c.publication_id, c.title)))
    ∧ (analyze_uniqueness { title := "" } ([] : List (SimilarityResult ℚ)) []
        (.ok parsedRespA)).comparisons.map (fun c => c.overlap_rating)
      = (analyze_uniqueness { title := "" } ([] : List (SimilarityResult ℚ)) []
        (.ok parsedRespB)).comparisons.map (fun c => c.overlap_rating) :=
  ⟨by decide,
   (llm_free_text_cannot_alter_metrics { title := "" } [] [] _ _ (by decide)).2.2.1⟩

/-! ## Composite similarity ranker (`src/src/embeddings/similarity.py`) -/

/-- Row dot product, the list form of `np.dot` on matching shapes. -/
def dot (xs ys : List ℝ) : ℝ :=
  ((xs.zip ys).map (fun p => p.1 * p.2)).sum

/-- `RankingResult`: container for similarity ranking output. -/
structure RankingResult where
  results : List (SimilarityResult ℝ)
  proposal_embedding : List ℝ
  pub_embeddings : List (List ℝ)
  publications : List Publication
  similarities : List ℝ
  threshold : ℝ

/-- `_compute_idf_concept_scores`, with the sentence encoder `encodeC` and
the undefined config constant `CONCEPT_MATCH_THRESHOLD` (`tau`) as
parameters.  A 2-d numpy array is a list of rows, so `shape[0]` is the
list length and `size == 0` is emptiness. -/
noncomputable def compute_idf_concept_scores (tau : ℝ)
    (encodeC : List String → List (List ℝ)) (proposal : UserProposal)
    (pub_embeddings : List (List ℝ)) : Option (List ℝ) :=
  let concepts := extract_concepts proposal
  let n_pubs := pub_embeddings.length
  if concepts = [] ∨ n_pubs = 0 then none
  else
    let concept_embeddings := encodeC concepts
    if concept_embeddings = [] then none
    else
      let concept_sims := pub_embeddings.map
        (fun pe => concept_embeddings.map (fun ce => dot pe ce))
      let df := (List.range concept_embeddings.length).map
        (fun j => (concept_sims.filter (fun row => tau ≤ row.getD j 0)).length)
      let idf := df.map
        (fun (d : Nat) => Real.log (((n_pubs : ℝ) + 1) / ((d : ℝ) + 1)) + 1)
      some (concept_sims.map (fun row => dot row idf / idf.sum))

/-- The holistic cosine similarities
`np.dot(pub_embeddings, proposal_embedding)`. -/
noncomputable def rawSimilarities (encodeP : UserProposal → List ℝ)
    (encodePubs : List Publication → List (List ℝ))
    (proposal : UserProposal) (publications : List Publication) : List ℝ :=
  (encodePubs publications).map (fun pe => dot pe (encodeP proposal))

/-- The `final_scores` of `rank_publications`: geometric mean of the
non-negative-clipped holistic and concept scores when concept scores are
available, raw holistic similarity otherwise. -/
noncomputable def finalScores (tau : ℝ) (encodeP : UserProposal → List ℝ)
    (encodePubs : List Publication → List (List ℝ))
    (encodeC : List String → List (List ℝ))
    (proposal : UserProposal) (publications : List Publication) : List ℝ :=
  let raw_similarities := rawSimilarities encodeP encodePubs proposal publications
  match compute_idf_concept_scores tau encodeC proposal (encodePubs publications) with
  | some concept_scores =>
      (raw_similarities.zip concept_scores).map
        (fun p => Real.sqrt (max p.1 0 * max p.2 0))
  | none => raw_similarities

/-- The descending stable order on index-tagged results: strictly greater
score first, ties in original index order.  Total and transitive, so the
insertion sort below realizes Python's stable
`sort(key=score, reverse=True)`. -/
def sortRel (a b : ℕ × SimilarityResult ℝ) : Prop :=
  b.2.similarity_score < a.2.similarity_score
  ∨ (a.2.similarity_score = b.2.similarity_score ∧ a.1 ≤ b.1)

noncomputable instance : DecidableRel sortRel :=
  fun _ _ => inferInstanceAs (Decidable (_ ∨ _))

instance : IsTotal (ℕ × SimilarityResult ℝ) sortRel where
  total a b := by
    unfold sortRel
    rcases lt_trichotomy a.2.similarity_score b.2.similarity_score with h | h | h
    · exact Or.inr (Or.inl h)
    · rcases Nat.le_total a.1 b.1 with h1 | h1
      · exact Or.inl (Or.inr ⟨h, h1⟩)
      · exact Or.inr (Or.inr ⟨h.symm, h1⟩)
    · exact Or.inl (Or.inl h)

instance : IsTrans (ℕ × SimilarityResult ℝ) sortRel where
  trans a b c hab hbc := by
    unfold sortRel at *
    rcases hab with hab | ⟨hab1, hab2⟩
    · rcases hbc with hbc | ⟨hbc1, hbc2⟩
      · exact Or.inl (lt_trans hbc hab)
      · exact Or.inl (hbc1 ▸ hab)
    · rcases hbc with hbc | ⟨hbc1, hbc2⟩
      · exact Or.inl (hab1 ▸ hbc)
      · exact Or.inr ⟨hab1.trans hbc1, le_trans hab2 hbc2⟩

/-- The filtered, index-tagged candidate list of `rank_publications`: for
each publication index, keep `(idx, SimilarityResult)` when the final
score reaches the threshold. -/
noncomputable def buildIndexed (publications : List Publication)
    (final_scores : List ℝ) (threshold : ℝ) : List (ℕ × SimilarityResult ℝ) :=
  (List.range publications.length).filterMap (fun idx =>
    if threshold ≤ final_scores.getD idx 0 then
      some (idx, ({ publication := publications.getD idx defaultPub
                    similarity_score := final_scores.getD idx 0 } : SimilarityResult ℝ))
    else none)

/-- The stably descending-sorted candidate list (`results.sort(...)`). -/
noncomputable def sortedIndexed (publications : List Publication)
    (final_scores : List ℝ) (threshold : ℝ) : List (ℕ × SimilarityResult ℝ) :=
  List.insertionSort sortRel (buildIndexed publications final_scores threshold)

/-- Dense 1-based rank assignment after truncation
(`for i, result in enumerate(results): result.rank = i + 1`). -/
def rankAssign (l : List (SimilarityResult ℝ)) : List (SimilarityResult ℝ) :=
  l.enum.map (fun p => { p.2 with rank := p.1 + 1 })

/-- `rank_publications`: rank publications by composite similarity.
The three encoders are external models passed as parameters. -/
noncomputable def rank_publications (tau : ℝ) (encodeP : UserProposal → List ℝ)
    (encodePubs : List Publication → List (List ℝ))
    (encodeC : List String → List (List ℝ))
    (proposal : UserProposal) (publications : List Publication)
    (top_k : Nat := SIMILARITY_TOP_K)
    (threshold : ℝ := SIMILARITY_THRESHOLD) : RankingResult :=
  if publications = [] then ⟨[], [], [], [], [], threshold⟩
  else
    let proposal_embedding := encodeP proposal
    let pub_embeddings := encodePubs publications
    if pub_embeddings = [] then
      ⟨[], proposal_embedding, pub_embeddings, publications, [], threshold⟩
    else
      let raw_similarities := rawSimilarities encodeP encodePubs proposal publications
      let final_scores := finalScores tau encodeP encodePubs encodeC proposal publications
      let sorted := sortedIndexed publications final_scores threshold
      let results := rankAssign ((sorted.map Prod.snd).take top_k)
      ⟨results, proposal_embedding, pub_embeddings, publications,
        raw_similarities, threshold⟩

/-! ## Claim C1: the composite score formula -/

/-- Modelled from the spec: the claimed composite score, a fixed weighted
combination of the non-negative-clipped holistic and concept scores with
the default weights 0.75 and 0.25. -/
def specCompositeWeighted (raw concept : List ℝ) : List ℝ :=
  (raw.zip concept).map (fun p => 0.75 * max p.1 0 + 0.25 * max p.2 0)

/-- Concept extraction of the concrete proposal used in the ranker
counterexamples. -/
theorem extract_sonar :
    extract_concepts { title := "", keywords := ["sonar"] } = ["sonar"] := by
  decide

/-- Concrete concept-score evaluation with concept embedding `[0]`:
one publication, one concept, similarity 0 below any positive threshold,
so df = 0, idf = log 2 + 1, and the normalized score is 0. -/
theorem idf_eval_zero :
    compute_idf_concept_scores (3 / 10) (fun _ => [[0]])
      { title := "", keywords := ["sonar"] } [[1]] = some [0] := by
  unfold compute_idf_concept_scores
  rw [extract_sonar]
  norm_num [dot]

/-- C1 counterexample.  At a concrete input where concepts are extracted
(`concept_scores = some [0]`) with holistic similarity 1 and concept score
0, the code's composite score is `sqrt(1·0) = 0`, while the claimed fixed
weighted combination `0.75·1 + 0.25·0` is `0.75`. -/
theorem composite_weighted_combination_counterexample :
    finalScores (3 / 10) (fun _ => [1]) (fun _ => [[1]]) (fun _ => [[0]])
        { title := "", keywords := ["sonar"] } [defaultPub] = [0]
    ∧ rawSimilarities (fun _ => [1]) (fun _ => [[1]])
        { title := "", keywords := ["sonar"] } [defaultPub] = [1]
    ∧ compute_idf_concept_scores (3 / 10) (fun _ => [[0]])
        { title := "", keywords := ["sonar"] } [[1]] = some [0]
    ∧ specCompositeWeighted [1] [0] = [3 / 4]
    ∧ ([0] : List ℝ) ≠ [3 / 4] := by
  have hraw : rawSimilarities (fun _ => [1]) (fun _ => [[1]])
      { title := "", keywords := ["sonar"] } [defaultPub] = [1] := by
    norm_num [rawSimilarities, dot]
  refine ⟨?_, hraw, idf_eval_zero, ?_, ?_⟩
  · unfold finalScores
    rw [hraw]
    rw [show compute_idf_concept_scores (3 / 10) (fun _ => [[0]])
      { title := "", keywords := ["sonar"] }
      ((fun _ => [[1]]) [defaultPub]) = some [0] from idf_eval_zero]
    norm_num [Real.sqrt_zero]
  · norm_num [specCompositeWeighted]
  · intro h
    have := List.head_eq_of_cons_eq h
    norm_num at this

/-- `_compute_idf_concept_scores` returns one score per publication. -/
theorem idf_some_length {tau : ℝ} {encodeC : List String → List (List ℝ)}
    {proposal : UserProposal} {pub_embeddings : List (List ℝ)} {cs : List ℝ}
    (h : compute_idf_concept_scores tau encodeC proposal pub_embeddings = some cs) :
    cs.length = pub_embeddings.length := by
  simp only [compute_idf_concept_scores] at h
  split_ifs at h with h1 h2
  have hcs := Option.some.inj h
  rw [← hcs, List.length_map, List.length_map]

/-- C1, amended.  When concept scores are computed, the composite score of
every publication is the geometric mean `sqrt(clip(holistic)·clip(concept))`
of the non-negative-clipped holistic and concept scores (not a 0.75/0.25
weighted combination); when no concept scores exist, the composite scores
are the raw unclipped holistic cosine similarities. -/
theorem final_scores_amended (tau : ℝ) (encodeP : UserProposal → List ℝ)
    (encodePubs : List Publication → List (List ℝ))
    (encodeC : List String → List (List ℝ))
    (proposal : UserProposal) (publications : List Publication) :
    (∀ cs, compute_idf_concept_scores tau encodeC proposal
        (encodePubs publications) = some cs →
      (finalScores tau encodeP encodePubs encodeC proposal publications).length
        = (encodePubs publications).length
      ∧ ∀ i, i < (encodePubs publications).length →
          (finalScores tau encodeP encodePubs encodeC proposal publications).getD i 0
            = Real.sqrt
                (max ((rawSimilarities encodeP encodePubs proposal
                    publications).getD i 0) 0
                  * max (cs.getD i 0) 0))
    ∧ (compute_idf_concept_scores tau encodeC proposal (encodePubs publications)
          = none →
        finalScores tau encodeP encodePubs encodeC proposal publications
          = rawSimilarities encodeP encodePubs proposal publications) := by
  have hrawlen : (rawSimilarities encodeP encodePubs proposal publications).length
      = (encodePubs publications).length := by
    simp [rawSimilarities]
  constructor
  · intro cs h
    have hcslen : cs.length = (encodePubs publications).length := idf_some_length h
    have hfin : finalScores tau encodeP encodePubs encodeC proposal publications
        = ((rawSimilarities encodeP encodePubs proposal publications).zip cs).map
            (fun p => Real.sqrt (max p.1 0 * max p.2 0)) := by
      unfold finalScores
      rw [h]
    have hlen : (finalScores tau encodeP encodePubs encodeC proposal
        publications).length = (encodePubs publications).length := by
      rw [hfin]
      simp [List.length_zip, hrawlen, hcslen]
    refine ⟨hlen, fun i hi => ?_⟩
    have hi2 : i < (finalScores tau encodeP encodePubs encodeC proposal
        publications).length := by omega
    have hi3 : i < (((rawSimilarities encodeP encodePubs proposal
        publications).zip cs).map
          (fun p => Real.sqrt (max p.1 0 * max p.2 0))).length := by
      rw [← hfin]; exact hi2
    rw [List.getD_eq_getElem _ _ hi2]
    have hiraw : i < (rawSimilarities encodeP encodePubs proposal
        publications).length := by omega
    have hics : i < cs.length := by omega
    rw [List.getD_eq_getElem _ _ hiraw, List.getD_eq_getElem _ _ hics]
    simp only [hfin] at hi2 ⊢
    rw [List.getElem_map, List.getElem_zip]
  · intro h
    unfold finalScores
    rw [h]

/-- Witness for C1's amended theorem at the counterexample input. -/
theorem final_scores_amended_witness :
    compute_idf_concept_scores (3 / 10) (fun _ => [[0]])
      { title := "", keywords := ["sonar"] } [[1]] = some [0]
    ∧ (finalScores (3 / 10) (fun _ => [1]) (fun _ => [[1]]) (fun _ => [[0]])
        { title := "", keywords := ["sonar"] } [defaultPub]).getD 0 0
      = Real.sqrt
          (max ((rawSimilarities (fun _ => [1]) (fun _ => [[1]])
              { title := "", keywords := ["sonar"] } [defaultPub]).getD 0 0) 0
            * max (([0] : List ℝ).getD 0 0) 0) :=
  ⟨idf_eval_zero,
   ((final_scores_amended (3 / 10) (fun _ => [1]) (fun _ => [[1]])
      (fun _ => [[0]]) { title := "", keywords := ["sonar"] } [defaultPub]).1
     [0] idf_eval_zero).2 0 (by norm_num)⟩

/-! ## Claim C6: the concept-score formula -/

/-- Modelled from the spec: the claimed concept score, identical to
`_compute_idf_concept_scores` except that each per-concept similarity is
non-negative-clipped before the IDF-weighted average. -/
noncomputable def specConceptScoresClipped (tau : ℝ)
    (encodeC : List String → List (List ℝ)) (proposal : UserProposal)
    (pub_embeddings : List (List ℝ)) : Option (List ℝ) :=
  let concepts := extract_concepts proposal
  let n_pubs := pub_embeddings.length
  if concepts = [] ∨ n_pubs = 0 then none
  else
    let concept_embeddings := encodeC concepts
    if concept_embeddings = [] then none
    else
      let concept_sims := pub_embeddings.map
        (fun pe => concept_embeddings.map (fun ce => dot pe ce))
      let df := (List.range concept_embeddings.length).map
        (fun j => (concept_sims.filter (fun row => tau ≤ row.getD j 0)).length)
      let idf := df.map
        (fun (d : Nat) => Real.log (((n_pubs : ℝ) + 1) / ((d : ℝ) + 1)) + 1)
      some (concept_sims.map
        (fun row => dot (row.map (fun s => max s 0)) idf / idf.sum))

/-- Concrete concept-score evaluation with concept embedding `[-1/2]`:
the single similarity is −1/2, df = 0, idf = log 2 + 1 ≠ 0, so the code's
unclipped normalized score is −1/2. -/
theorem idf_eval_neg :
    compute_idf_concept_scores (3 / 10) (fun _ => [[-(1 / 2)]])
      { title := "", keywords := ["sonar"] } [[1]] = some [-(1 / 2)] := by
  unfold compute_idf_concept_scores
  rw [extract_sonar]
  have h0 : (0 : ℝ) ≤ Real.log 2 := Real.log_nonneg (by norm_num)
  have hw : Real.log 2 + 1 ≠ 0 := by
    intro hc
    linarith
  norm_num [dot, List.range_succ, List.range_zero, List.filter_cons, Function.comp]
  field_simp
  ring

/-- C6 counterexample.  At a concrete input the code's concept score is the
unclipped value −1/2, while the claimed clipped formula gives 0: the code
does not clip the per-concept similarities before averaging. -/
theorem concept_scores_clipping_counterexample :
    compute_idf_concept_scores (3 / 10) (fun _ => [[-(1 / 2)]])
      { title := "", keywords := ["sonar"] } [[1]] = some [-(1 / 2)]
    ∧ specConceptScoresClipped (3 / 10) (fun _ => [[-(1 / 2)]])
      { title := "", keywords := ["sonar"] } [[1]] = some [0]
    ∧ (some [(-(1 / 2) : ℝ)] : Option (List ℝ)) ≠ some [(0 : ℝ)] := by
  refine ⟨idf_eval_neg, ?_, ?_⟩
  · unfold specConceptScoresClipped
    rw [extract_sonar]
    norm_num [dot, List.range_succ, List.range_zero, List.filter_cons,
      Function.comp]
  · intro h
    have h1 := Option.some.inj h
    have h2 := List.head_eq_of_cons_eq h1
    norm_num at h2

/-- `dot` as a sum over positions. -/
theorem dot_eq_sum_range :
    ∀ (xs ys : List ℝ), dot xs ys =
      ((List.range (min xs.length ys.length)).map
        (fun i => xs.getD i 0 * ys.getD i 0)).sum
  | [], ys => by simp [dot]
  | x :: xs, [] => by simp [dot]
  | x :: xs, y :: ys => by
    have ih := dot_eq_sum_range xs ys
    simp only [dot, List.zip_cons_cons, List.map_cons, List.sum_cons,
      List.length_cons, Nat.succ_min_succ, List.range_succ_eq_map,
      List.map_map]
    rw [show ((fun i => (x :: xs).getD i 0 * (y :: ys).getD i 0) ∘ (· + 1))
        = (fun i => xs.getD i 0 * ys.getD i 0) from ?_]
    · simp only [List.getD_cons_zero]
      rw [dot] at ih
      rw [← ih]
    · funext i
      simp [List.getD_cons_succ]

/-- `getD` through `map` at an in-range index. -/
theorem getD_map_of_lt {β γ : Type} (f : β → γ) (l : List β) (i : Nat)
    (hi : i < l.length) (d : γ) (e : β) :
    (l.map f).getD i d = f (l.getD i e) := by
  rw [List.getD_eq_getElem _ _ (by simpa using hi),
    List.getD_eq_getElem _ _ hi, List.getElem_map]

/-- `getD` on a mapped range at an in-range index. -/
theorem getD_range_map {γ : Type} (f : Nat → γ) (n i : Nat) (hi : i < n) (d : γ) :
    ((List.range n).map f).getD i d = f i := by
  rw [getD_map_of_lt f _ i (by simpa using hi) d 0,
    List.getD_eq_getElem _ _ (by simpa using hi), List.getElem_range]

/-- The document frequency of one concept, as the spec states it: the
number of publications whose similarity to that concept reaches the match
threshold. -/
noncomputable def conceptDf (tau : ℝ) (pub_embeddings : List (List ℝ))
    (cej : List ℝ) : Nat :=
  (pub_embeddings.filter (fun pe => tau ≤ dot pe cej)).length

/-- The smoothed IDF weight of one concept: `ln((N+1)/(df+1)) + 1`. -/
noncomputable def conceptIdf (tau : ℝ) (pub_embeddings : List (List ℝ))
    (cej : List ℝ) : ℝ :=
  Real.log (((pub_embeddings.length : ℝ) + 1)
    / ((conceptDf tau pub_embeddings cej : ℝ) + 1)) + 1

/-- C6, amended.  When `_compute_idf_concept_scores` returns scores, each
publication's concept score is the IDF-weighted average of its RAW
(unclipped) per-concept similarities normalized by total IDF mass, with
the per-concept IDF weight `ln((N+1)/(df+1)) + 1` and df the number of
publications whose similarity to that concept reaches the threshold. -/
theorem concept_scores_amended (tau : ℝ)
    (encodeC : List String → List (List ℝ)) (proposal : UserProposal)
    (pub_embeddings : List (List ℝ)) (cs : List ℝ)
    (h : compute_idf_concept_scores tau encodeC proposal pub_embeddings = some cs) :
    cs.length = pub_embeddings.length
    ∧ ∀ i, i < pub_embeddings.length →
        cs.getD i 0 =
          ((List.range (encodeC (extract_concepts proposal)).length).map
            (fun j => dot (pub_embeddings.getD i [])
                ((encodeC (extract_concepts proposal)).getD j [])
              * conceptIdf tau pub_embeddings
                  ((encodeC (extract_concepts proposal)).getD j []))).sum
          / ((List.range (encodeC (extract_concepts proposal)).length).map
              (fun j => conceptIdf tau pub_embeddings
                ((encodeC (extract_concepts proposal)).getD j []))).sum := by
  have hlen := idf_some_length h
  refine ⟨hlen, fun i hi => ?_⟩
  simp only [compute_idf_concept_scores] at h
  split_ifs at h with h1 h2
  set ce := encodeC (extract_concepts proposal) with hce
  set n := pub_embeddings.length with hn
  set concept_sims := pub_embeddings.map (fun pe => ce.map (fun c => dot pe c))
    with hsims
  set df := (List.range ce.length).map
    (fun j => (concept_sims.filter (fun row => tau ≤ row.getD j 0)).length)
    with hdf
  set idf := df.map
    (fun (d : Nat) => Real.log (((n : ℝ) + 1) / ((d : ℝ) + 1)) + 1) with hidf
  have hcs := (Option.some.inj h).symm
  -- The per-row predicate and weights re-expressed through the spec defs.
  have hdfval : ∀ j, j < ce.length →
      (concept_sims.filter (fun row => tau ≤ row.getD j 0)).length
        = conceptDf tau pub_embeddings (ce.getD j []) := by
    intro j hj
    rw [hsims, List.filter_map]
    rw [List.length_map]
    unfold conceptDf
    congr 1
    apply List.filter_congr
    intro pe _
    simp only [Function.comp]
    congr 1
    rw [getD_map_of_lt (fun c => dot pe c) ce j hj 0 []]
  have hidfval : idf = (List.range ce.length).map
      (fun j => conceptIdf tau pub_embeddings (ce.getD j [])) := by
    rw [hidf, hdf, List.map_map]
    apply List.map_congr_left
    intro j hj
    rw [List.mem_range] at hj
    simp only [Function.comp]
    rw [hdfval j hj]
    unfold conceptIdf
    rw [← hn]
  -- Identify cs at index i.
  have hrow : cs.getD i 0 = dot (ce.map (fun c => dot (pub_embeddings.getD i []) c))
      idf / idf.sum := by
    rw [hcs]
    rw [getD_map_of_lt _ concept_sims i (by rw [hsims, List.length_map]; exact hi) 0 []]
    congr 2
    rw [hsims]
    rw [getD_map_of_lt (fun pe => ce.map (fun c => dot pe c)) pub_embeddings i hi [] []]
  rw [hrow]
  have hrowlen : (ce.map (fun c => dot (pub_embeddings.getD i []) c)).length
      = ce.length := List.length_map _ _
  have hidflen : idf.length = ce.length := by
    rw [hidf, hdf, List.length_map, List.length_map, List.length_range]
  rw [dot_eq_sum_range, hrowlen, hidflen, Nat.min_self]
  congr 1
  · congr 1
    apply List.map_congr_left
    intro j hj
    rw [List.mem_range] at hj
    congr 1
    · rw [getD_map_of_lt (fun c => dot (pub_embeddings.getD i []) c) ce j hj 0 []]
    · rw [hidfval, getD_range_map _ _ _ hj]
  · rw [hidfval]

/-- Witness for C6's amended theorem at the counterexample input. -/
theorem concept_scores_amended_witness :
    compute_idf_concept_scores (3 / 10) (fun _ => [[-(1 / 2)]])
      { title := "", keywords := ["sonar"] } [[1]] = some [-(1 / 2)]
    ∧ ([(-(1 / 2) : ℝ)] : List ℝ).length = ([[(1 : ℝ)]] : List (List ℝ)).length :=
  ⟨idf_eval_neg,
   (concept_scores_amended (3 / 10) (fun _ => [[-(1 / 2)]])
      { title := "", keywords := ["sonar"] } [[1]] [-(1 / 2)] idf_eval_neg).1⟩

/-! ## Claim C4: ranker filtering, sorting, truncation and ranking -/

/-- Every element of the filtered candidate list records its publication
index, the publication and final score at that index, and passes the
threshold. -/
theorem buildIndexed_mem {publications : List Publication}
    {final_scores : List ℝ} {threshold : ℝ} {pr : ℕ × SimilarityResult ℝ}
    (h : pr ∈ buildIndexed publications final_scores threshold) :
    pr.1 < publications.length
    ∧ pr.2.publication = publications.getD pr.1 defaultPub
    ∧ pr.2.similarity_score = final_scores.getD pr.1 0
    ∧ threshold ≤ pr.2.similarity_score := by
  unfold buildIndexed at h
  rw [List.mem_filterMap] at h
  obtain ⟨idx, hidx, hf⟩ := h
  rw [List.mem_range] at hidx
  by_cases hc : threshold ≤ final_scores.getD idx 0
  · rw [if_pos hc] at hf
    have := Option.some.inj hf
    rw [← this]
    exact ⟨hidx, rfl, rfl, hc⟩
  · rw [if_neg hc] at hf
    exact absurd hf (by simp)

/-- The candidate list carries strictly increasing publication indices. -/
theorem buildIndexed_pairwise_lt (publications : List Publication)
    (final_scores : List ℝ) (threshold : ℝ) :
    List.Pairwise (fun a b => a.1 < b.1)
      (buildIndexed publications final_scores threshold) := by
  unfold buildIndexed
  rw [List.pairwise_filterMap]
  have hfst : ∀ (c : Nat) (z : ℕ × SimilarityResult ℝ),
      z ∈ (if threshold ≤ final_scores.getD c 0 then
        some (c, ({ publication := publications.getD c defaultPub
                    similarity_score := final_scores.getD c 0 }
          : SimilarityResult ℝ)) else none) → z.1 = c := by
    intro c z hz
    by_cases hc : threshold ≤ final_scores.getD c 0
    · rw [if_pos hc, Option.mem_def] at hz
      have := Option.some.inj hz
      rw [← this]
    · rw [if_neg hc] at hz
      exact absurd hz (by simp)
  apply List.Pairwise.imp ?_ (List.pairwise_lt_range _)
  intro a b hab
  intro x hx y hy
  rw [hfst a x hx, hfst b y hy]
  exact hab

/-- The sorted candidate list is a permutation of the filtered one. -/
theorem sortedIndexed_perm (publications : List Publication)
    (final_scores : List ℝ) (threshold : ℝ) :
    List.Perm (sortedIndexed publications final_scores threshold)
      (buildIndexed publications final_scores threshold) :=
  List.perm_insertionSort _ _

/-- The sorted candidate list is sorted for the stable descending order. -/
theorem sortedIndexed_sorted (publications : List Publication)
    (final_scores : List ℝ) (threshold : ℝ) :
    List.Pairwise sortRel (sortedIndexed publications final_scores threshold) :=
  List.sorted_insertionSort sortRel _

/-- Provenance of the sorted candidate list. -/
theorem sortedIndexed_mem {publications : List Publication}
    {final_scores : List ℝ} {threshold : ℝ} {pr : ℕ × SimilarityResult ℝ}
    (h : pr ∈ sortedIndexed publications final_scores threshold) :
    pr.1 < publications.length
    ∧ pr.2.publication = publications.getD pr.1 defaultPub
    ∧ pr.2.similarity_score = final_scores.getD pr.1 0
    ∧ threshold ≤ pr.2.similarity_score :=
  buildIndexed_mem ((sortedIndexed_perm publications final_scores threshold).mem_iff.mp h)

/-- The sorted candidate list is strictly ordered lexicographically:
strictly descending score, with ties strictly in original input order —
exactly the stable descending sort. -/
theorem sortedIndexed_pairwise_strict (publications : List Publication)
    (final_scores : List ℝ) (threshold : ℝ) :
    List.Pairwise (fun a b : ℕ × SimilarityResult ℝ =>
        b.2.similarity_score < a.2.similarity_score
        ∨ (a.2.similarity_score = b.2.similarity_score ∧ a.1 < b.1))
      (sortedIndexed publications final_scores threshold) := by
  have h1 := sortedIndexed_sorted publications final_scores threshold
  have hne : List.Pairwise (fun a b : ℕ × SimilarityResult ℝ => a.1 ≠ b.1)
      (sortedIndexed publications final_scores threshold) := by
    have hb : List.Pairwise (fun a b : ℕ × SimilarityResult ℝ => a.1 ≠ b.1)
        (buildIndexed publications final_scores threshold) :=
      (buildIndexed_pairwise_lt publications final_scores threshold).imp
        (fun h => Nat.ne_of_lt h)
    exact ((sortedIndexed_perm publications final_scores threshold).pairwise_iff
      (fun h => Ne.symm h)).mpr hb
  refine (h1.and hne).imp ?_
  intro a b h
  obtain ⟨hr, hne1⟩ := h
  unfold sortRel at hr
  rcases hr with hr | ⟨hr1, hr2⟩
  · exact Or.inl hr
  · exact Or.inr ⟨hr1, lt_of_le_of_ne hr2 hne1⟩

/-- `rankAssign` preserves the score sequence and assigns the dense ranks
`n+1, n+2, ...` (stated for the general `enumFrom` offset). -/
theorem rankAssign_enumFrom_maps :
    ∀ (l : List (SimilarityResult ℝ)) (n : Nat),
      (((List.enumFrom n l).map
        (fun p => ({ p.2 with rank := p.1 + 1 } : SimilarityResult ℝ))).map
          (fun r => r.similarity_score) = l.map (fun r => r.similarity_score))
      ∧ (((List.enumFrom n l).map
          (fun p => ({ p.2 with rank := p.1 + 1 } : SimilarityResult ℝ))).map
            (fun r => r.rank) = List.range' (n + 1) l.length)
  | [], n => by simp
  | x :: xs, n => by
    have ih := rankAssign_enumFrom_maps xs (n + 1)
    simp only [List.enumFrom_cons, List.map_cons, List.length_cons,
      List.range'_succ]
    exact ⟨by rw [ih.1], by rw [ih.2]⟩

theorem rankAssign_map_score (l : List (SimilarityResult ℝ)) :
    (rankAssign l).map (fun r => r.similarity_score)
      = l.map (fun r => r.similarity_score) :=
  (rankAssign_enumFrom_maps l 0).1

theorem rankAssign_map_rank (l : List (SimilarityResult ℝ)) :
    (rankAssign l).map (fun r => r.rank) = List.range' 1 l.length :=
  (rankAssign_enumFrom_maps l 0).2

theorem rankAssign_length (l : List (SimilarityResult ℝ)) :
    (rankAssign l).length = l.length := by
  unfold rankAssign
  rw [List.length_map, List.enum_length]

/-- C4.  The output of `rank_publications` contains no result below the
threshold, has length at most `top_k`, carries the dense ranks `1..N` in
order, and is sorted by descending composite score; the underlying sorted
candidate list is strictly ordered by (score descending, original input
index ascending) — Python's stable descending sort — and each candidate
records its source publication and final score; on the main path the
output is exactly the rank-assigned truncation of that sorted list. -/
theorem rank_publications_filter_sort_rank (tau : ℝ)
    (encodeP : UserProposal → List ℝ)
    (encodePubs : List Publication → List (List ℝ))
    (encodeC : List String → List (List ℝ))
    (proposal : UserProposal) (publications : List Publication)
    (top_k : Nat) (threshold : ℝ) :
    (∀ r ∈ (rank_publications tau encodeP encodePubs encodeC proposal
        publications top_k threshold).results, threshold ≤ r.similarity_score)
    ∧ (rank_publications tau encodeP encodePubs encodeC proposal
        publications top_k threshold).results.length ≤ top_k
    ∧ (rank_publications tau encodeP encodePubs encodeC proposal
        publications top_k threshold).results.map (fun r => r.rank)
      = List.range' 1 (rank_publications tau encodeP encodePubs encodeC proposal
          publications top_k threshold).results.length
    ∧ List.Pairwise (fun a b : SimilarityResult ℝ =>
        b.similarity_score ≤ a.similarity_score)
      (rank_publications tau encodeP encodePubs encodeC proposal
        publications top_k threshold).results
    ∧ List.Pairwise (fun a b : ℕ × SimilarityResult ℝ =>
        b.2.similarity_score < a.2.similarity_score
        ∨ (a.2.similarity_score = b.2.similarity_score ∧ a.1 < b.1))
      (sortedIndexed publications
        (finalScores tau encodeP encodePubs encodeC proposal publications)
        threshold)
    ∧ (∀ pr ∈ sortedIndexed publications
        (finalScores tau encodeP encodePubs encodeC proposal publications)
        threshold,
        pr.1 < publications.length
        ∧ pr.2.publication = publications.getD pr.1 defaultPub
        ∧ pr.2.similarity_score = (finalScores tau encodeP encodePubs encodeC
            proposal publications).getD pr.1 0
        ∧ threshold ≤ pr.2.similarity_score)
    ∧ (publications ≠ [] → encodePubs publications ≠ [] →
        (rank_publications tau encodeP encodePubs encodeC proposal
          publications top_k threshold).results
        = rankAssign (((sortedIndexed publications
            (finalScores tau encodeP encodePubs encodeC proposal publications)
            threshold).map Prod.snd).take top_k)) := by
  set fs := finalScores tau encodeP encodePubs encodeC proposal publications with hfs
  have hgeneral5 := sortedIndexed_pairwise_strict publications fs threshold
  have hgeneral6 : ∀ pr ∈ sortedIndexed publications fs threshold,
      pr.1 < publications.length
      ∧ pr.2.publication = publications.getD pr.1 defaultPub
      ∧ pr.2.similarity_score = fs.getD pr.1 0
      ∧ threshold ≤ pr.2.similarity_score := fun pr hpr => sortedIndexed_mem hpr
  by_cases hpubs : publications = []
  · have hres : (rank_publications tau encodeP encodePubs encodeC proposal
        publications top_k threshold).results = [] := by
      simp [rank_publications, hpubs]
    rw [hres]
    exact ⟨by simp, by simp, by simp, by simp, hgeneral5, hgeneral6,
      fun h => absurd hpubs h⟩
  · by_cases hemb : encodePubs publications = []
    · have hres : (rank_publications tau encodeP encodePubs encodeC proposal
          publications top_k threshold).results = [] := by
        simp [rank_publications, hpubs, hemb]
      rw [hres]
      exact ⟨by simp, by simp, by simp, by simp, hgeneral5, hgeneral6,
        fun _ h => absurd hemb h⟩
    · have hres : (rank_publications tau encodeP encodePubs encodeC proposal
          publications top_k threshold).results
          = rankAssign (((sortedIndexed publications fs threshold).map
              Prod.snd).take top_k) := by
        simp [rank_publications, hpubs, hemb, rankAssign, hfs]
      set taken := ((sortedIndexed publications fs threshold).map
        Prod.snd).take top_k with htaken
      have hscores : (rank_publications tau encodeP encodePubs encodeC proposal
          publications top_k threshold).results.map (fun r => r.similarity_score)
          = taken.map (fun r => r.similarity_score) := by
        rw [hres, rankAssign_map_score]
      refine ⟨?_, ?_, ?_, ?_, hgeneral5, hgeneral6, fun _ _ => hres⟩
      · intro r hr
        have hmem : r.similarity_score ∈ taken.map
            (fun r => r.similarity_score) := by
          rw [← hscores]
          exact List.mem_map_of_mem _ hr
        rw [List.mem_map] at hmem
        obtain ⟨x, hx, hxs⟩ := hmem
        have hx2 : x ∈ (sortedIndexed publications fs threshold).map Prod.snd :=
          List.take_subset _ _ hx
        rw [List.mem_map] at hx2
        obtain ⟨pr, hpr, hprx⟩ := hx2
        have := (sortedIndexed_mem hpr).2.2.2
        rw [hprx] at this
        rw [← hxs]
        exact this
      · rw [hres, rankAssign_length]
        exact List.length_take_le _ _
      · rw [hres, rankAssign_map_rank, rankAssign_length]
      · have hp : List.Pairwise (fun a b : ℝ => b ≤ a)
            (taken.map (fun r => r.similarity_score)) := by
          have h1 : List.Pairwise (fun a b : SimilarityResult ℝ =>
              b.similarity_score ≤ a.similarity_score)
              ((sortedIndexed publications fs threshold).map Prod.snd) := by
            apply List.Pairwise.map _ ?_
              (sortedIndexed_sorted publications fs threshold)
            intro a b hab
            unfold sortRel at hab
            rcases hab with hab | ⟨hab, _⟩
            · exact le_of_lt hab
            · exact le_of_eq hab.symm
          have h2 := h1.sublist (List.take_sublist top_k
            ((sortedIndexed publications fs threshold).map Prod.snd))
          apply List.Pairwise.map _ ?_ h2
          intro a b hab
          exact hab
        rw [← hscores] at hp
        rw [List.pairwise_map] at hp
        exact hp


/-- Witness for C4 at a concrete input: on a non-empty publication list
with non-empty embeddings, the output is exactly the rank-assigned
truncation of the stably sorted, filtered candidate list. -/
theorem rank_publications_filter_sort_rank_witness :
    (rank_publications (3 / 10) (fun _ => [1]) (fun _ => [[1]]) (fun _ => [[0]])
        { title := "", keywords := ["sonar"] } [defaultPub] 20 (3 / 10)).results
      = rankAssign (((sortedIndexed [defaultPub]
          (finalScores (3 / 10) (fun _ => [1]) (fun _ => [[1]]) (fun _ => [[0]])
            { title := "", keywords := ["sonar"] } [defaultPub]) (3 / 10)).map
          Prod.snd).take 20) :=
  (rank_publications_filter_sort_rank (3 / 10) (fun _ => [1]) (fun _ => [[1]])
    (fun _ => [[0]]) { title := "", keywords := ["sonar"] } [defaultPub] 20
    (3 / 10)).2.2.2.2.2.2 (by simp) (by simp)

/-! ## Pipeline (`src/src/pipeline.py`) -/

/-- The report computation of `run_pipeline`.  Retrieval, abstract
fetching, markdown rendering and file saving are external I/O; the
retrieved publication list and the LLM parse outcome are parameters.  With
no publications the pipeline short-circuits to a fixed UNIQUE report;
otherwise it ranks, analyzes, and patches `total_results_found` with the
pre-filter total. -/
noncomputable def run_pipeline (tau : ℝ) (encodeP : UserProposal → List ℝ)
    (encodePubs : List Publication → List (List ℝ))
    (encodeC : List String → List (List ℝ))
    (proposal : UserProposal) (publications : List Publication)
    (llm_response : Except String (ParsedResponse ℝ))
    (query_texts : List String) : AnalysisReport ℝ :=
  if publications = [] then
    { proposal := proposal
      verdict := .UNIQUE
      confidence := 1 / 2
      executive_summary :=
        "No publications were found in the DTIC database matching the search "
          ++ "queries derived from this topic. This suggests an open landscape "
          ++ "with wide opportunity, or that the search terms need refinement. "
          ++ "Manual verification is recommended."
      total_results_found := 0
      results_analyzed := 0
      search_queries_used := query_texts }
  else
    let ranking := rank_publications tau encodeP encodePubs encodeC
      proposal publications
    let report := analyze_uniqueness proposal ranking.results query_texts
      llm_response
    { report with total_results_found := publications.length }

/-! ## Claim C9: zero publications retrieved -/

/-- C9.  When retrieval returns zero publications, the pipeline's report
has verdict UNIQUE, confidence 0.50, an empty comparisons list and
`total_results_found = 0` — a total computation, not an error, for every
proposal, encoder, LLM outcome and query list. -/
theorem zero_publications_unique_report (tau : ℝ)
    (encodeP : UserProposal → List ℝ)
    (encodePubs : List Publication → List (List ℝ))
    (encodeC : List String → List (List ℝ)) (proposal : UserProposal)
    (llm_response : Except String (ParsedResponse ℝ))
    (query_texts : List String) :
    (run_pipeline tau encodeP encodePubs encodeC proposal [] llm_response
        query_texts).verdict = .UNIQUE
    ∧ (run_pipeline tau encodeP encodePubs encodeC proposal [] llm_response
        query_texts).confidence = 1 / 2
    ∧ (run_pipeline tau encodeP encodePubs encodeC proposal [] llm_response
        query_texts).comparisons = []
    ∧ (run_pipeline tau encodeP encodePubs encodeC proposal [] llm_response
        query_texts).total_results_found = 0 :=
  ⟨rfl, rfl, rfl, rfl⟩
